import Mathlib

/-!
Shallow embedding of `src/iris.py` (iris-manager): the binary configuration
codec (`Color`, `Cue`, `Header`, `load_from_bytes`) and, modelled from the
spec, the message-framing `read_frame` loop.

A Python byte string is a `List Nat` (each element `0 ≤ b < 256`); a byte
iterator is the suffix of that list that has not been consumed yet, so a
decoder takes the remaining list and returns the decoded value together with
the list left after it.  Python exceptions become `Except PyError`.
-/

/-- Exceptions the Python runtime raises on the decode paths of `iris.py`:
`structError` is `struct.error` (the buffer handed to `struct.unpack` has the
wrong size), `typeError` is `TypeError` (the object handed to `struct.unpack`
is not bytes-like). -/
inductive PyError
| structError
| typeError
  deriving Repr, DecidableEq

/-- The buffer argument of Python's `struct.unpack`: either a `bytes` object
or a `list` of ints.  `struct.unpack` only accepts bytes-like objects; a
Python `list` makes it raise `TypeError`, whatever the list holds. -/
inductive PyBuffer
| bytes (data : List Nat)
| list (data : List Nat)
  deriving Repr, DecidableEq

/-- A little-endian unsigned 16-bit value from its two bytes. -/
def le16 (b0 b1 : Nat) : Nat := b0 + 256 * b1

/-- A little-endian unsigned 32-bit value from its four bytes. -/
def le32 (b0 b1 b2 b3 : Nat) : Nat :=
  b0 + 256 * b1 + 65536 * b2 + 16777216 * b3

/-- `get_bit_as_bool(number, bit_index)` of `iris.py`:
`True if number >> bit_index & 1 == 1 else False`. -/
def get_bit_as_bool (number : Nat) (bit_index : Nat) : Bool :=
  if (number >>> bit_index) &&& 1 = 1 then true else false

/-- The `RampType` enum of `iris.py`: `linearHSL = 0`, `linearRGB = 1`,
`jump = 2`. -/
inductive RampType
| linearHSL
| linearRGB
| jump
  deriving Repr, DecidableEq

/-- The integer value of a `RampType` member. -/
def RampType.value : RampType → Nat
| .linearHSL => 0
| .linearRGB => 1
| .jump => 2

/-- What the dynamically typed `ramp_type` attribute of a `Cue` holds.
`Cue.__init__`'s default argument is the enum member `RampType.jump`, while
`Cue.from_bytes` passes the raw integer unpacked from the byte stream straight
through without converting it to `RampType`; both shapes occur in the
program, so the field is a sum of the two. -/
inductive RampTypeField
| enum (r : RampType)
| raw (n : Nat)
  deriving Repr, DecidableEq

/-- The `Color` class: three unsigned 8-bit channels. -/
structure Color where
  red : Nat
  green : Nat
  blue : Nat
  deriving Repr, DecidableEq

/-- `struct.calcsize('<BBB')`. -/
def Color.format_size : Nat := 3

/-- `struct.unpack('<BBB', buffer)`: requires a bytes-like buffer of exactly
3 bytes; a Python `list` buffer raises `TypeError`, a bytes buffer of any
other size raises `struct.error`. -/
def struct_unpack_BBB (buffer : PyBuffer) : Except PyError (Nat × Nat × Nat) :=
  match buffer with
  | .list _ => .error .typeError
  | .bytes [b0, b1, b2] => .ok (b0, b1, b2)
  | .bytes _ => .error .structError

/-- `Color.from_bytes`: `bytes(itertools.islice(bytes_iter, 0, 3))` takes the
next (at most) 3 bytes off the iterator and converts them to a bytes object,
then `struct.unpack('<BBB', ...)` yields the three channels in order
red, green, blue. -/
def Color.from_bytes (input : List Nat) : Except PyError (Color × List Nat) :=
  match struct_unpack_BBB (.bytes (input.take Color.format_size)) with
  | .error e => .error e
  | .ok (red, green, blue) =>
      .ok ({ red := red, green := green, blue := blue }, input.drop Color.format_size)

/-- The `Cue` class of `iris.py`, with its eleven attributes in declaration
order. -/
structure Cue where
  channels : List Bool
  reverse : Bool
  wrap_hue : Bool
  time_divisor : Nat
  delay : Nat
  duration : Nat
  ramp_type : RampTypeField
  ramp_parameter : Nat
  start_color : Color
  end_color : Color
  offset_color : Color
  deriving Repr, DecidableEq

/-- `Cue.__init__` called with no arguments: every parameter takes its
default value (`channels=[False for _ in range(12)]`, `reverse=False`,
`wrap_hue=False`, `time_divisor=12`, `delay=0`, `duration=1000`,
`ramp_type=RampType.jump`, `ramp_parameter=1000`, and black for the three
colors). -/
def Cue.init_default : Cue :=
  { channels := List.replicate 12 false
    reverse := false
    wrap_hue := false
    time_divisor := 12
    delay := 0
    duration := 1000
    ramp_type := .enum .jump
    ramp_parameter := 1000
    start_color := { red := 0, green := 0, blue := 0 }
    end_color := { red := 0, green := 0, blue := 0 }
    offset_color := { red := 0, green := 0, blue := 0 } }

/-- `struct.calcsize('<HBHLBL')` = 2+1+2+4+1+4. -/
def Cue.format_size : Nat := 14

/-- `struct.unpack('<HBHLBL', buffer)`: requires a bytes-like buffer of
exactly 14 bytes and unpacks, little-endian with no padding, a u16, a u8, a
u16, a u32, a u8 and a u32 in that order.  A Python `list` buffer raises
`TypeError`; a bytes buffer of any other size raises `struct.error`. -/
def struct_unpack_HBHLBL (buffer : PyBuffer) :
    Except PyError (Nat × Nat × Nat × Nat × Nat × Nat) :=
  match buffer with
  | .list _ => .error .typeError
  | .bytes [b0, b1, b2, b3, b4, b5, b6, b7, b8, b9, b10, b11, b12, b13] =>
      .ok (le16 b0 b1, b2, le16 b3 b4, le32 b5 b6 b7 b8, b9, le32 b10 b11 b12 b13)
  | .bytes _ => .error .structError

/-- `Cue.from_bytes`: take 14 bytes off the iterator and unpack them with
`'<HBHLBL'`; the first unpacked value is the packed flags field, from which
bits 0..11 become `channels`, bit 12 `reverse` and bit 13 `wrap_hue` via
`get_bit_as_bool`; the remaining five unpacked values are passed positionally
to `__init__` (`time_divisor`, `delay`, `duration`, `ramp_type`,
`ramp_parameter` — note the raw integer lands in `ramp_type` unconverted);
then three `Color.from_bytes` calls consume 9 more bytes for `start_color`,
`end_color` and `offset_color`. -/
def Cue.from_bytes (input : List Nat) : Except PyError (Cue × List Nat) :=
  match struct_unpack_HBHLBL (.bytes (input.take Cue.format_size)) with
  | .error e => .error e
  | .ok (channels_reverse_wrap, time_divisor, delay, duration, ramp_type, ramp_parameter) =>
    match Color.from_bytes (input.drop Cue.format_size) with
    | .error e => .error e
    | .ok (start_color, rest1) =>
      match Color.from_bytes rest1 with
      | .error e => .error e
      | .ok (end_color, rest2) =>
        match Color.from_bytes rest2 with
        | .error e => .error e
        | .ok (offset_color, rest3) =>
            .ok ({ channels :=
                     (List.range 12).map (fun i => get_bit_as_bool channels_reverse_wrap i)
                   reverse := get_bit_as_bool channels_reverse_wrap 12
                   wrap_hue := get_bit_as_bool channels_reverse_wrap 13
                   time_divisor := time_divisor
                   delay := delay
                   duration := duration
                   ramp_type := .raw ramp_type
                   ramp_parameter := ramp_parameter
                   start_color := start_color
                   end_color := end_color
                   offset_color := offset_color }, rest3)

/-- The `Header` class: `number_of_cues` and `number_of_schedule_elements`. -/
structure Header where
  number_of_cues : Nat
  number_of_schedule_elements : Nat
  deriving Repr, DecidableEq

/-- `struct.calcsize('<2H')`. -/
def Header.format_size : Nat := 4

/-- `struct.unpack('<2H', buffer)`: requires a bytes-like buffer of exactly
4 bytes holding two little-endian u16 values.  A Python `list` buffer raises
`TypeError`; a bytes buffer of any other size raises `struct.error`. -/
def struct_unpack_2H (buffer : PyBuffer) : Except PyError (Nat × Nat) :=
  match buffer with
  | .list _ => .error .typeError
  | .bytes [b0, b1, b2, b3] => .ok (le16 b0 b1, le16 b2 b3)
  | .bytes _ => .error .structError

/-- `Header.from_bytes`: unlike `Color.from_bytes` and `Cue.from_bytes`,
which wrap the islice in `bytes(...)`, line 141 of `iris.py` builds
`byte_list = list(itertools.islice(bytes_iter, 0, 4))` — a Python *list* —
and hands that list to `struct.unpack('<2H', byte_list)`, which therefore
raises `TypeError` on every input. -/
def Header.from_bytes (input : List Nat) : Except PyError (Header × List Nat) :=
  match struct_unpack_2H (.list (input.take Header.format_size)) with
  | .error e => .error e
  | .ok (number_of_cues, number_of_schedule_elements) =>
      .ok ({ number_of_cues := number_of_cues
             number_of_schedule_elements := number_of_schedule_elements },
           input.drop Header.format_size)

/-- The cue-loading loop of `load_from_bytes`: `for i in
range(number_of_cues): all_cues.append(Cue.from_bytes(bytes_iter))`. -/
def load_cues : Nat → List Nat → Except PyError (List Cue × List Nat)
| 0, input => .ok ([], input)
| n + 1, input =>
  match Cue.from_bytes input with
  | .error e => .error e
  | .ok (cue, rest) =>
    match load_cues n rest with
    | .error e => .error e
    | .ok (cues, rest') => .ok (cue :: cues, rest')

/-- `load_from_bytes(byte_string)`: make an iterator over the byte string,
decode one `Header`, then `header.number_of_cues` consecutive `Cue` records,
and return the pair `(header, all_cues)` (the iterator's remaining suffix is
dropped). -/
def load_from_bytes (byte_string : List Nat) : Except PyError (Header × List Cue) :=
  match Header.from_bytes byte_string with
  | .error e => .error e
  | .ok (header, rest) =>
    match load_cues header.number_of_cues rest with
    | .error e => .error e
    | .ok (all_cues, _) => .ok (header, all_cues)

/-- Modelled from the spec: the Message Framing `read_frame` loop is not in
`src/iris.py` (the repository file holds only the binary codec), so it is
taken from the spec's words: repeatedly call the stream's chunked read with a
fixed chunk size (default 200), append each returned chunk to an
accumulator, and terminate returning the accumulator as soon as a read
returns fewer bytes than the requested chunk size (an exhausted stream's read
returns 0 bytes).  The stream is modelled as the list of successive chunks
its reads return. -/
def read_frame (chunk_size : Nat) : List (List Nat) → List Nat
| [] => []
| chunk :: later =>
  if chunk.length < chunk_size then chunk
  else chunk ++ read_frame chunk_size later

/-- The `Cue` that decoding twenty-three zero bytes produces: all twelve
channels off, both flags off, every scalar zero (the `ramp_type` attribute
holding the raw integer 0), and three black colors. -/
def cueAllZero : Cue :=
  { channels := List.replicate 12 false
    reverse := false
    wrap_hue := false
    time_divisor := 0
    delay := 0
    duration := 0
    ramp_type := .raw 0
    ramp_parameter := 0
    start_color := { red := 0, green := 0, blue := 0 }
    end_color := { red := 0, green := 0, blue := 0 }
    offset_color := { red := 0, green := 0, blue := 0 } }

/-- `get_bit_as_bool` in arithmetic form: bit `i` of `n` is the parity of
`n / 2 ^ i`. -/
theorem get_bit_as_bool_eq (n i : Nat) :
    get_bit_as_bool n i = decide (n / 2 ^ i % 2 = 1) := by
  unfold get_bit_as_bool
  rw [Nat.shiftRight_eq_div_pow, Nat.and_one_is_mod]
  split
  · simp_all
  · simp_all

/-- Evaluation of `Cue.from_bytes` on an input of at least 23 bytes, written
with the first 23 bytes as explicit heads of the list. -/
theorem cue_from_bytes_cons
    (b0 b1 b2 b3 b4 b5 b6 b7 b8 b9 b10 b11 b12 b13 b14 b15 b16 b17 b18 b19 b20 b21 b22 : Nat) (rest : List Nat) :
    Cue.from_bytes (b0 :: b1 :: b2 :: b3 :: b4 :: b5 :: b6 :: b7 :: b8 :: b9 :: b10 :: b11 :: b12 :: b13 :: b14 :: b15 :: b16 :: b17 :: b18 :: b19 :: b20 :: b21 :: b22 :: rest) =
      .ok ({ channels := (List.range 12).map (fun i => get_bit_as_bool (le16 b0 b1) i)
             reverse := get_bit_as_bool (le16 b0 b1) 12
             wrap_hue := get_bit_as_bool (le16 b0 b1) 13
             time_divisor := b2
             delay := le16 b3 b4
             duration := le32 b5 b6 b7 b8
             ramp_type := .raw b9
             ramp_parameter := le32 b10 b11 b12 b13
             start_color := { red := b14, green := b15, blue := b16 }
             end_color := { red := b17, green := b18, blue := b19 }
             offset_color := { red := b20, green := b21, blue := b22 } }, rest) := rfl

/-- Bits 0 to 13 of two numbers agree when the numbers agree modulo
`2 ^ 14 = 16384`. -/
theorem get_bit_low_of_mod (f g i : Nat) (hfg : f % 16384 = g % 16384) (hi : i ≤ 13) :
    get_bit_as_bool f i = get_bit_as_bool g i := by
  rw [get_bit_as_bool_eq, get_bit_as_bool_eq, decide_eq_decide]
  interval_cases i <;> (norm_num; omega)

/-- `Cue.from_bytes` depends on the two bytes of the packed flags field only
through their value modulo `16384`, i.e. through bits 0 to 13: replacing them
by any pair that agrees on those bits gives the identical outcome, success or
failure alike. -/
theorem cue_from_bytes_packed_congr (b0 b1 c0 c1 : Nat) (rest : List Nat)
    (h : le16 b0 b1 % 16384 = le16 c0 c1 % 16384) :
    Cue.from_bytes (b0 :: b1 :: rest) = Cue.from_bytes (c0 :: c1 :: rest) := by
  rcases rest with _ | ⟨t0, rest⟩; · rfl
  rcases rest with _ | ⟨t1, rest⟩; · rfl
  rcases rest with _ | ⟨t2, rest⟩; · rfl
  rcases rest with _ | ⟨t3, rest⟩; · rfl
  rcases rest with _ | ⟨t4, rest⟩; · rfl
  rcases rest with _ | ⟨t5, rest⟩; · rfl
  rcases rest with _ | ⟨t6, rest⟩; · rfl
  rcases rest with _ | ⟨t7, rest⟩; · rfl
  rcases rest with _ | ⟨t8, rest⟩; · rfl
  rcases rest with _ | ⟨t9, rest⟩; · rfl
  rcases rest with _ | ⟨t10, rest⟩; · rfl
  rcases rest with _ | ⟨t11, rest⟩; · rfl
  rcases rest with _ | ⟨u0, rest⟩; · rfl
  rcases rest with _ | ⟨u1, rest⟩; · rfl
  rcases rest with _ | ⟨u2, rest⟩; · rfl
  rcases rest with _ | ⟨u3, rest⟩; · rfl
  rcases rest with _ | ⟨u4, rest⟩; · rfl
  rcases rest with _ | ⟨u5, rest⟩; · rfl
  rcases rest with _ | ⟨u6, rest⟩; · rfl
  rcases rest with _ | ⟨u7, rest⟩; · rfl
  rcases rest with _ | ⟨u8, rest⟩; · rfl
  rw [cue_from_bytes_cons, cue_from_bytes_cons]
  have hmap : (List.range 12).map (fun i => get_bit_as_bool (le16 b0 b1) i)
      = (List.range 12).map (fun i => get_bit_as_bool (le16 c0 c1) i) :=
    List.map_congr_left (fun i hi =>
      get_bit_low_of_mod _ _ _ h (by rw [List.mem_range] at hi; omega))
  rw [hmap, get_bit_low_of_mod (le16 b0 b1) (le16 c0 c1) 12 h (by norm_num),
      get_bit_low_of_mod (le16 b0 b1) (le16 c0 c1) 13 h (by norm_num)]

/-- In a packed field `c + 4096 * rn + 8192 * wn + 16384 * hi`, each bit
below 12 comes from `c` alone. -/
theorem packed_bits_decode (c rn wn hi i : Nat) (hilt : i < 12) :
    get_bit_as_bool (c + 4096 * rn + 8192 * wn + 16384 * hi) i
      = decide (c / 2 ^ i % 2 = 1) := by
  rw [get_bit_as_bool_eq, decide_eq_decide]
  interval_cases i <;> (norm_num; omega)

/-- In a packed field `c + 4096 * rn + 8192 * wn + 16384 * hi` with `c` a
12-bit value and `rn` a single bit, bit 12 is `rn`. -/
theorem packed_bit12_decode (c rn wn hi : Nat) (hc : c < 4096) (hr : rn ≤ 1) :
    get_bit_as_bool (c + 4096 * rn + 8192 * wn + 16384 * hi) 12 = decide (rn = 1) := by
  rw [get_bit_as_bool_eq, decide_eq_decide]
  norm_num
  omega

/-- In a packed field `c + 4096 * rn + 8192 * wn + 16384 * hi` with `c` a
12-bit value and `rn`, `wn` single bits, bit 13 is `wn`. -/
theorem packed_bit13_decode (c rn wn hi : Nat) (hc : c < 4096) (hr : rn ≤ 1)
    (hw : wn ≤ 1) :
    get_bit_as_bool (c + 4096 * rn + 8192 * wn + 16384 * hi) 13 = decide (wn = 1) := by
  rw [get_bit_as_bool_eq, decide_eq_decide]
  norm_num
  omega

/-- Whenever `Cue.from_bytes` succeeds, the decoded cue's `channels` list has
length 12 (it is built by the `for i in range(12)` loop). -/
theorem cue_from_bytes_ok_channels_length (input : List Nat) (cue : Cue) (rest : List Nat)
    (h : Cue.from_bytes input = .ok (cue, rest)) : cue.channels.length = 12 := by
  unfold Cue.from_bytes at h
  split at h
  · exact Except.noConfusion h
  · split at h
    · exact Except.noConfusion h
    · split at h
      · exact Except.noConfusion h
      · split at h
        · exact Except.noConfusion h
        · simp only [Except.ok.injEq, Prod.mk.injEq] at h
          obtain ⟨h1, h2⟩ := h
          subst h1
          simp

/-- C1: on any byte sequence with at least 23 bytes remaining, `Cue.from_bytes`
succeeds, consumes exactly the first 23 bytes (returning the rest untouched),
and decodes, little-endian and in declared order, the 16-bit packed flags
field (bytes 0-1, giving `channels`, `reverse`, `wrap_hue`), `time_divisor`
(byte 2), `delay` (bytes 3-4), `duration` (bytes 5-8), `ramp_type` (byte 9),
`ramp_parameter` (bytes 10-13), then three 3-byte colors in field order
red, green, blue: `start_color` (bytes 14-16), `end_color` (bytes 17-19) and
`offset_color` (bytes 20-22). -/
theorem cue_decode_layout
    (b0 b1 b2 b3 b4 b5 b6 b7 b8 b9 b10 b11 b12 b13 b14 b15 b16 b17 b18 b19 b20 b21 b22 : Nat) (rest : List Nat) :
    Cue.from_bytes (b0 :: b1 :: b2 :: b3 :: b4 :: b5 :: b6 :: b7 :: b8 :: b9 :: b10 :: b11 :: b12 :: b13 :: b14 :: b15 :: b16 :: b17 :: b18 :: b19 :: b20 :: b21 :: b22 :: rest) =
      .ok ({ channels := (List.range 12).map (fun i => decide ((b0 + 256 * b1) / 2 ^ i % 2 = 1))
             reverse := decide ((b0 + 256 * b1) / 2 ^ 12 % 2 = 1)
             wrap_hue := decide ((b0 + 256 * b1) / 2 ^ 13 % 2 = 1)
             time_divisor := b2
             delay := b3 + 256 * b4
             duration := b5 + 256 * b6 + 65536 * b7 + 16777216 * b8
             ramp_type := .raw b9
             ramp_parameter := b10 + 256 * b11 + 65536 * b12 + 16777216 * b13
             start_color := { red := b14, green := b15, blue := b16 }
             end_color := { red := b17, green := b18, blue := b19 }
             offset_color := { red := b20, green := b21, blue := b22 } }, rest) := by
  rw [cue_from_bytes_cons]
  simp [get_bit_as_bool_eq, le16, le32]

/-- C2: decoding a packed flags field `c + reverse * 2 ^ 12 + wrap_hue * 2 ^ 13
+ hi * 2 ^ 14` (with `c` any 12-bit channel pattern and `hi` the two unused
high bits) yields exactly the channel booleans `channels[i] = (c >> i) & 1 = 1`
for `i < 12`, `reverse` as bit 12 and `wrap_hue` as bit 13; and the decode
outcome depends on the two packed-field bytes only through bits 0 to 13, so
bits 14 and 15 never affect any decoded field. -/
theorem cue_packed_field_bit_semantics :
    (∀ (c : Nat) (r w : Bool) (hi : Nat) (a0 a1 a2 a3 a4 a5 a6 a7 a8 a9 a10 a11 a12 a13 a14 a15 a16 a17 a18 a19 a20 : Nat) (t : List Nat),
       c < 4096 → hi < 4 →
       ∃ cue rest,
         Cue.from_bytes ((c + 4096 * Bool.toNat r + 8192 * Bool.toNat w + 16384 * hi) % 256 :: (c + 4096 * Bool.toNat r + 8192 * Bool.toNat w + 16384 * hi) / 256 :: a0 :: a1 :: a2 :: a3 :: a4 :: a5 :: a6 :: a7 :: a8 :: a9 :: a10 :: a11 :: a12 :: a13 :: a14 :: a15 :: a16 :: a17 :: a18 :: a19 :: a20 :: t) = .ok (cue, rest) ∧
         cue.channels = (List.range 12).map (fun i => decide (c / 2 ^ i % 2 = 1)) ∧
         cue.reverse = r ∧ cue.wrap_hue = w) ∧
    (∀ (b0 b1 c0 c1 : Nat) (rest : List Nat),
       le16 b0 b1 % 16384 = le16 c0 c1 % 16384 →
       Cue.from_bytes (b0 :: b1 :: rest) = Cue.from_bytes (c0 :: c1 :: rest)) := by
  constructor
  · intro c r w hi a0 a1 a2 a3 a4 a5 a6 a7 a8 a9 a10 a11 a12 a13 a14 a15 a16 a17 a18 a19 a20 t hc hhi
    have hr : Bool.toNat r ≤ 1 := by cases r <;> simp
    have hw : Bool.toNat w ≤ 1 := by cases w <;> simp
    have hle : le16 ((c + 4096 * Bool.toNat r + 8192 * Bool.toNat w + 16384 * hi) % 256) ((c + 4096 * Bool.toNat r + 8192 * Bool.toNat w + 16384 * hi) / 256) = (c + 4096 * Bool.toNat r + 8192 * Bool.toNat w + 16384 * hi) := by
      unfold le16; omega
    refine ⟨_, _, cue_from_bytes_cons _ _ _ _ _ _ _ _ _ _ _ _ _ _ _ _ _ _ _ _ _ _ _ _,
      ?_, ?_, ?_⟩
    · rw [hle]
      refine List.map_congr_left fun i hi2 => ?_
      rw [List.mem_range] at hi2
      exact packed_bits_decode c (Bool.toNat r) (Bool.toNat w) hi i hi2
    · rw [hle, packed_bit12_decode c (Bool.toNat r) (Bool.toNat w) hi hc hr]
      cases r <;> simp
    · rw [hle, packed_bit13_decode c (Bool.toNat r) (Bool.toNat w) hi hc hr hw]
      cases w <;> simp
  · exact cue_from_bytes_packed_congr

/-- Witness for C2 at channel pattern 5, reverse on, wrap_hue off, both
unused high bits set, followed by 21 zero bytes. -/
theorem cue_packed_field_bit_semantics_witness :
    ∃ cue rest,
      Cue.from_bytes ((5 + 4096 * Bool.toNat true + 8192 * Bool.toNat false + 16384 * 3) % 256 :: (5 + 4096 * Bool.toNat true + 8192 * Bool.toNat false + 16384 * 3) / 256 :: 0 :: 0 :: 0 :: 0 :: 0 :: 0 :: 0 :: 0 :: 0 :: 0 :: 0 :: 0 :: 0 :: 0 :: 0 :: 0 :: 0 :: 0 :: 0 :: 0 :: 0 :: []) = .ok (cue, rest) ∧
      cue.channels = (List.range 12).map (fun i => decide (5 / 2 ^ i % 2 = 1)) ∧
      cue.reverse = true ∧ cue.wrap_hue = false :=
  cue_packed_field_bit_semantics.1 5 true false 3 0 0 0 0 0 0 0 0 0 0 0 0 0 0 0 0 0 0 0 0 0 []
    (by norm_num) (by norm_num)

/-- C3 (code bug): `load_from_bytes` never decodes a header and cues — it
raises `TypeError` on every input, because `Header.from_bytes` hands a Python
`list` (line 141 of `iris.py`) to `struct.unpack`, which requires a
bytes-like object. -/
theorem load_from_bytes_always_type_error (input : List Nat) :
    load_from_bytes input = .error .typeError := rfl

/-- C4 (code bug): on a blob whose header field announces one cue but whose
remaining ten bytes end partway through that cue, `load_from_bytes` fails
with `TypeError` raised already by the header decode — not with the
`struct.error` (truncated input) the claim expects — while `Cue.from_bytes`
itself, on the ten remaining bytes, does fail with `struct.error` rather than
producing a partial cue. -/
theorem load_from_bytes_truncated_mid_cue :
    load_from_bytes [1, 0, 0, 0, 10, 11, 12, 13, 14, 15, 16, 17, 18, 19] = .error .typeError ∧
    Cue.from_bytes [10, 11, 12, 13, 14, 15, 16, 17, 18, 19] = .error .structError :=
  ⟨rfl, rfl⟩

/-- C5 counterexample: a 23-byte input whose `ramp_type` byte is 99 — not one
of the recognized `RampType` values 0, 1, 2 — is decoded successfully by
`Cue.from_bytes`, which stores the raw integer 99 in `ramp_type` instead of
failing or producing a `RampType` member. -/
theorem cue_ramp_type_unvalidated_cex :
    Cue.from_bytes [0, 0, 12, 0, 0, 0, 0, 0, 0, 99, 0, 0, 0, 0, 0, 0, 0, 0, 0, 0, 0, 0, 0] =
      .ok ({ channels := List.replicate 12 false
             reverse := false
             wrap_hue := false
             time_divisor := 12
             delay := 0
             duration := 0
             ramp_type := .raw 99
             ramp_parameter := 0
             start_color := { red := 0, green := 0, blue := 0 }
             end_color := { red := 0, green := 0, blue := 0 }
             offset_color := { red := 0, green := 0, blue := 0 } }, []) := rfl

/-- C5 (amended): `Cue.from_bytes` performs no validation of the `ramp_type`
byte: decoding succeeds for every 8-bit value of byte 9, recognized or not,
and the resulting cue's `ramp_type` attribute always holds the raw integer,
never a member of the `RampType` enumeration. -/
theorem cue_ramp_type_stored_raw (b0 b1 b2 b3 b4 b5 b6 b7 b8 b9 b10 b11 b12 b13 b14 b15 b16 b17 b18 b19 b20 b21 b22 : Nat) (rest : List Nat) :
    ∃ cue rest2,
      Cue.from_bytes (b0 :: b1 :: b2 :: b3 :: b4 :: b5 :: b6 :: b7 :: b8 :: b9 :: b10 :: b11 :: b12 :: b13 :: b14 :: b15 :: b16 :: b17 :: b18 :: b19 :: b20 :: b21 :: b22 :: rest) = .ok (cue, rest2) ∧
      cue.ramp_type = RampTypeField.raw b9 :=
  ⟨_, _, cue_from_bytes_cons b0 b1 b2 b3 b4 b5 b6 b7 b8 b9 b10 b11 b12 b13 b14 b15 b16 b17 b18 b19 b20 b21 b22 rest, rfl⟩

/-- C6 (code bug): `Header.from_bytes` never consumes 4 bytes and returns two
little-endian u16 fields — it raises `TypeError` on every input, because it
passes a Python `list` instead of a bytes object to `struct.unpack('<2H', ...)`
(compare `Color.from_bytes` and `Cue.from_bytes`, which wrap the islice in
`bytes(...)`). -/
theorem header_from_bytes_always_type_error (input : List Nat) :
    Header.from_bytes input = .error .typeError := rfl

/-- C7: every `Cue` the program produces has a `channels` list of length
exactly 12 — the `Cue.__init__` default and every cue `Cue.from_bytes`
returns — and decoding never validates or rejects the two high bits of the
packed field: clearing bits 14 and 15 (reducing the field modulo 16384)
leaves the whole decode outcome unchanged on every input. -/
theorem cue_channels_twelve_and_high_bits_ignored :
    Cue.init_default.channels.length = 12 ∧
    (∀ (input : List Nat) (cue : Cue) (rest : List Nat),
        Cue.from_bytes input = .ok (cue, rest) → cue.channels.length = 12) ∧
    (∀ (b0 b1 : Nat) (rest : List Nat),
        Cue.from_bytes (le16 b0 b1 % 16384 % 256 :: le16 b0 b1 % 16384 / 256 :: rest) =
          Cue.from_bytes (b0 :: b1 :: rest)) := by
  refine ⟨by simp [Cue.init_default], cue_from_bytes_ok_channels_length, ?_⟩
  intro b0 b1 rest
  exact cue_from_bytes_packed_congr _ _ _ _ _ (by unfold le16; omega)

/-- Witness for C7: the default-constructed cue and the cue decoded from 23
zero bytes both have 12 channels. -/
theorem cue_channels_twelve_witness :
    Cue.init_default.channels.length = 12 ∧ cueAllZero.channels.length = 12 :=
  ⟨cue_channels_twelve_and_high_bits_ignored.1,
   cue_channels_twelve_and_high_bits_ignored.2.1 (List.replicate 23 0) cueAllZero [] rfl⟩

/-- C8 (code bug): `load_from_bytes` on the 4-byte blob announcing zero cues
does not succeed with an empty cue sequence — it raises `TypeError` while
decoding the header, like on every other input. -/
theorem load_from_bytes_zero_cues_type_error :
    load_from_bytes [0, 0, 0, 0] = .error .typeError := rfl

/-- C9: `read_frame` appends full chunks (each of exactly the requested chunk
size) to its accumulator and terminates, returning the accumulator, at the
first read that returns fewer bytes than requested, ignoring anything the
stream would yield later; in particular a stream yielding chunks of 200, 200
and 50 bytes gives a 450-byte frame (see the witness). -/
theorem read_frame_stops_at_short_read (chunk_size : Nat) (full : List (List Nat))
    (last_chunk : List Nat) (later : List (List Nat))
    (hfull : ∀ c ∈ full, c.length = chunk_size)
    (hlast : last_chunk.length < chunk_size) :
    read_frame chunk_size (full ++ last_chunk :: later) = full.flatten ++ last_chunk := by
  induction full with
  | nil => simp [read_frame, hlast]
  | cons c cs ih =>
      have hc : c.length = chunk_size := hfull c (by simp)
      have hrec : read_frame chunk_size (cs ++ last_chunk :: later) = cs.flatten ++ last_chunk :=
        ih fun d hd => hfull d (by simp [hd])
      simp [read_frame, hc, hrec]

/-- Witness for C9: chunks of 200, 200 and 50 bytes at chunk size 200 produce
the 450-byte frame made of their concatenation. -/
theorem read_frame_stops_at_short_read_witness :
    read_frame 200 [List.replicate 200 0, List.replicate 200 1, List.replicate 50 2] =
      List.replicate 200 0 ++ (List.replicate 200 1 ++ List.replicate 50 2) ∧
    (read_frame 200 [List.replicate 200 0, List.replicate 200 1, List.replicate 50 2]).length
      = 450 := by
  have h := read_frame_stops_at_short_read 200 [List.replicate 200 0, List.replicate 200 1]
      (List.replicate 50 2) []
      (by
        intro c hc
        rw [List.mem_cons, List.mem_singleton] at hc
        rcases hc with rfl | rfl <;> rw [List.length_replicate])
      (by rw [List.length_replicate]; norm_num)
  rw [List.cons_append, List.cons_append, List.nil_append, List.flatten_cons,
      List.flatten_cons, List.flatten_nil, List.append_nil, List.append_assoc] at h
  refine ⟨h, ?_⟩
  rw [h, List.length_append, List.length_append, List.length_replicate,
      List.length_replicate, List.length_replicate]

/-- C10 (code bug): `load_from_bytes` succeeds on no blob at all (so there is
no successful run that reads `4 + 23 * number_of_cues` bytes and ignores the
rest): the header decode raises `TypeError` first, on every input. -/
theorem load_from_bytes_never_ok (input : List Nat) (hd : Header) (cues : List Cue) :
    load_from_bytes input ≠ .ok (hd, cues) := by
  intro h
  rw [show load_from_bytes input = .error .typeError from rfl] at h
  exact Except.noConfusion h
